import Mathlib

/-!
Verification development for the Fornjot B-rep kernel slice.

Shallow embedding conventions:
* the Rust scalar type (f64) is modelled as the rationals;
* fj-math's Euclidean point distance (fj-math is not part of the shown
  sources) is modelled by the squared distance, and every comparison of a
  distance against a tolerance threshold is correspondingly made against the
  squared threshold, which agrees with the source for nonnegative thresholds;
* circles are evaluated with the rational tangent half-angle parametrization
  (the geometry module that evaluates curves is not part of the shown
  sources; the spec only requires a pure map from parameter to point that is
  determined by center and the two radius vectors);
* panics are modelled as error values of an Except type;
* store handles are modelled structurally, with object identity kept only
  where the algorithms consult it (vertex and global-edge ids as naturals).
-/

namespace Fj

/-! ## Scalars and vectors -/

/-- Two-dimensional point/vector in surface-local coordinates
(fj-math Point<2> / Vector<2>). -/
@[ext] structure Vec2 where
  u : ℚ
  v : ℚ
deriving DecidableEq

/-- Three-dimensional global point/vector (fj-math Point<3> / Vector<3>). -/
@[ext] structure Vec3 where
  x : ℚ
  y : ℚ
  z : ℚ
deriving DecidableEq

instance : Add Vec2 := ⟨fun a b => ⟨a.u + b.u, a.v + b.v⟩⟩
instance : Sub Vec2 := ⟨fun a b => ⟨a.u - b.u, a.v - b.v⟩⟩
instance : SMul ℚ Vec2 := ⟨fun q a => ⟨q * a.u, q * a.v⟩⟩
instance : Add Vec3 := ⟨fun a b => ⟨a.x + b.x, a.y + b.y, a.z + b.z⟩⟩
instance : Sub Vec3 := ⟨fun a b => ⟨a.x - b.x, a.y - b.y, a.z - b.z⟩⟩
instance : SMul ℚ Vec3 := ⟨fun q a => ⟨q * a.x, q * a.y, q * a.z⟩⟩

/-- Two-dimensional cross product, as used by Cycle::winding
(src/crates/fj-kernel/src/objects/full/cycle.rs, circle.a().cross2d(circle.b())). -/
def cross2d (a b : Vec2) : ℚ := a.u * b.v - a.v * b.u

/-- Dot product of 3D vectors (fj-math; used by the spec-modelled
surface-surface intersection). -/
def dot3 (a b : Vec3) : ℚ := a.x * b.x + a.y * b.y + a.z * b.z

/-- Cross product of 3D vectors (fj-math; used by the spec-modelled
surface-surface intersection). -/
def cross3 (a b : Vec3) : Vec3 :=
  ⟨a.y * b.z - a.z * b.y, a.z * b.x - a.x * b.z, a.x * b.y - a.y * b.x⟩

/-- Squared Euclidean distance between two 3D points. Modelled from the spec:
fj-math's distance_to (not among the shown sources) returns the Euclidean
distance; we carry its square and compare against squared thresholds. -/
def sq_distance_to (p q : Vec3) : ℚ :=
  (p.x - q.x) ^ 2 + (p.y - q.y) ^ 2 + (p.z - q.z) ^ 2

/-! ## Curves and surfaces -/

/-- Rational circle parametrization, cosine component. Modelled from the
spec: the curve geometry module is not among the shown sources; the spec
requires a pure parameter-to-point map determined by the defining data. -/
def rcos (t : ℚ) : ℚ := (1 - t ^ 2) / (1 + t ^ 2)

/-- Rational circle parametrization, sine component (see rcos). -/
def rsin (t : ℚ) : ℚ := 2 * t / (1 + t ^ 2)

/-- Line in surface-local coordinates: origin plus parameter times direction. -/
structure Line2 where
  origin : Vec2
  direction : Vec2
deriving DecidableEq

/-- Circle in surface-local coordinates, defined by center and the two
radius vectors a and b (spec section 3, Curve). -/
structure Circle2 where
  center : Vec2
  a : Vec2
  b : Vec2
deriving DecidableEq

/-- Curve variant: line or circle (spec section 3; matched exhaustively by
Cycle::winding in src/crates/fj-kernel/src/objects/full/cycle.rs). -/
inductive Curve where
  | line (line : Line2)
  | circle (circle : Circle2)
deriving DecidableEq

/-- Evaluate a curve at a path coordinate, in surface-local coordinates.
Modelled from the spec: the evaluation code is not among the shown sources.
Lines map t to origin + t * direction; circles use the rational
parametrization center + rcos t * a + rsin t * b. -/
def Curve.point_from_path_coords : Curve → ℚ → Vec2
  | .line l, t => l.origin + t • l.direction
  | .circle c, t => c.center + rcos t • c.a + rsin t • c.b

/-- Line in global 3D coordinates. -/
structure Line3 where
  origin : Vec3
  direction : Vec3
deriving DecidableEq

/-- Circle in global 3D coordinates. -/
structure Circle3 where
  center : Vec3
  a : Vec3
  b : Vec3
deriving DecidableEq

/-- Global path underlying a surface (GlobalPath in the sources; constructed
by line_from_points in src/crates/fj-kernel/src/operations/build/surface.rs). -/
inductive GlobalPath where
  | line (line : Line3)
  | circle (circle : Circle3)
deriving DecidableEq

/-- Evaluate a global path at a path coordinate (see
Curve.point_from_path_coords for the modelling of the evaluation). -/
def GlobalPath.point_from_path_coords : GlobalPath → ℚ → Vec3
  | .line l, t => l.origin + t • l.direction
  | .circle c, t => c.center + rcos t • c.a + rsin t • c.b

/-- Surface geometry: a path in the u direction plus a vector in the v
direction (SurfaceGeometry, used by
src/crates/fj-kernel/src/operations/build/surface.rs and
src/crates/fj-kernel/src/validate/shell.rs). -/
structure SurfaceGeometry where
  u : GlobalPath
  v : Vec3
deriving DecidableEq

/-- Map a surface-local point to global 3D space. Modelled from the spec
(the surface geometry module is not among the shown sources): evaluate the
u path at the u coordinate and add v times the v coordinate. -/
def SurfaceGeometry.point_from_surface_coords (s : SurfaceGeometry) (p : Vec2) : Vec3 :=
  s.u.point_from_path_coords p.u + p.v • s.v

/-- Build a plane through three points
(src/crates/fj-kernel/src/operations/build/surface.rs, plane_from_points):
u is the line from a towards b, v is c - a. -/
def plane_from_points (a b c : Vec3) : SurfaceGeometry :=
  { u := .line ⟨a, b - a⟩, v := c - a }

/-! ## Topological objects -/

/-- Directed half-edge: curve, boundary interval in curve coordinates, start
vertex and the id of the referenced GlobalEdge
(spec section 3; constructed by HalfEdge::new as called in
src/crates/fj-kernel/src/partial/objects/edge.rs and
src/crates/fj-kernel/src/algorithms/reverse/cycle.rs). The two-element
boundary array is modelled as a pair, handles by ids. -/
structure HalfEdge where
  curve : Curve
  boundary : ℚ × ℚ
  start_vertex : ℕ
  global_form : ℕ
deriving DecidableEq

instance : Inhabited HalfEdge :=
  ⟨{ curve := .line ⟨⟨0, 0⟩, ⟨1, 0⟩⟩, boundary := (0, 1), start_vertex := 0, global_form := 0 }⟩

/-- Surface position where the half-edge starts: its curve evaluated at the
first boundary coordinate (start_position in the sources). -/
def HalfEdge.start_position (e : HalfEdge) : Vec2 :=
  e.curve.point_from_path_coords e.boundary.1

/-- Surface position where the half-edge ends: its curve evaluated at the
second boundary coordinate. -/
def HalfEdge.end_position (e : HalfEdge) : Vec2 :=
  e.curve.point_from_path_coords e.boundary.2

/-- Cycle of connected half-edges
(src/crates/fj-kernel/src/objects/full/cycle.rs). -/
structure Cycle where
  half_edges : List HalfEdge
deriving DecidableEq

/-- Face: exterior cycle, interior cycles, surface and color
(spec section 3). -/
structure Face where
  exterior : Cycle
  interiors : List Cycle
  surface : SurfaceGeometry
  color : Option ℕ
deriving DecidableEq

/-- All cycles of a face, exterior first (all_cycles in the sources). -/
def Face.all_cycles (f : Face) : List Cycle :=
  f.exterior :: f.interiors

/-- Shell: a set of faces intended to enclose a volume (spec section 3). -/
structure Shell where
  faces : List Face
deriving DecidableEq

/-! ## Winding -/

/-- Rotational sense of a cycle (fj-math Winding). -/
inductive Winding where
  | ccw
  | cw
deriving DecidableEq

/-- Opposite winding. -/
def Winding.flip : Winding → Winding
  | .ccw => .cw
  | .cw => .ccw

/-- Panics of Cycle::winding, modelled as error values
(src/crates/fj-kernel/src/objects/full/cycle.rs: the expect on an empty
cycle, the unreachable for a non-circle in a short cycle, and the
unreachable for a zero shoelace sum). -/
inductive WindingError where
  | noHalfEdges
  | notCircle
  | zeroSum
deriving DecidableEq

/-- Shoelace summand over two consecutive start positions, exactly the
expression (b.u - a.u) * (b.v + a.v) accumulated by Cycle::winding. -/
def shoelace_term (a b : Vec2) : ℚ :=
  (b.u - a.u) * (b.v + a.v)

/-- Shoelace sum of Cycle::winding's general case: itertools'
circular_tuple_windows pairs each element with its successor, the last
element wrapping around to the first, which is the zip of the list with its
rotation by one. -/
def winding_sum (l : List HalfEdge) : ℚ :=
  ((l.zip (l.rotate 1)).map fun p => shoelace_term p.1.start_position p.2.start_position).sum

/-- Cycle::winding (src/crates/fj-kernel/src/objects/full/cycle.rs).
Cycles with fewer than three half-edges take the circle branch: the winding
is derived from the first edge's boundary direction and the sign of the
cross product of its circle's radius vectors. Longer cycles use the
shoelace sum over consecutive start positions; a positive sum means
clockwise, a negative sum counter-clockwise, and the zero sum hits the
unreachable arm. -/
def Cycle.winding (c : Cycle) : Except WindingError Winding :=
  if c.half_edges.length < 3 then
    match c.half_edges.head? with
    | none => .error .noHalfEdges
    | some first =>
      match first.curve with
      | .circle circ =>
        let edge_direction_positive := first.boundary.1 < first.boundary.2
        let cross_positive := 0 < cross2d circ.a circ.b
        if (edge_direction_positive ↔ cross_positive) then .ok .ccw else .ok .cw
      | .line _ => .error .notCircle
  else
    let sum := winding_sum c.half_edges
    if 0 < sum then .ok .cw
    else if sum < 0 then .ok .ccw
    else .error .zeroSum

/-- Shoelace sum in the wording of the claims: the sum over the cycle's
start positions taken pairwise in circular order, written with explicit
cyclic indexing. The claim theorems relate Cycle.winding to this sum. -/
def shoelace_sum (c : Cycle) : ℚ :=
  ∑ i ∈ Finset.range c.half_edges.length,
    shoelace_term
      ((c.half_edges.getD i default).start_position)
      ((c.half_edges.getD ((i + 1) % c.half_edges.length) default).start_position)

/-! ## Cycle reversal -/

/-- New half-edge built by cycle reversal from an edge and its successor
(src/crates/fj-kernel/src/algorithms/reverse/cycle.rs): same curve, boundary
endpoints swapped, start vertex taken from the next edge, same global form. -/
def reversed_half_edge (current next : HalfEdge) : HalfEdge :=
  { curve := current.curve
    boundary := (current.boundary.2, current.boundary.1)
    start_vertex := next.start_vertex
    global_form := current.global_form }

/-- Reverse for Handle<Cycle>
(src/crates/fj-kernel/src/algorithms/reverse/cycle.rs): map the circular
pairs of half-edges to reversed half-edges, then reverse the sequence order. -/
def Cycle.reverse (c : Cycle) : Cycle :=
  ⟨((c.half_edges.zip (c.half_edges.rotate 1)).map fun p => reversed_half_edge p.1 p.2).reverse⟩

/-- Cyclic rotation of a cycle's half-edge order (statement-side construct
for the rotation-invariance claim). -/
def Cycle.rotateEdges (c : Cycle) (k : ℕ) : Cycle :=
  ⟨c.half_edges.rotate k⟩

/-- Well-formed cycle: each half-edge ends where the cyclically next one
starts, and no half-edge has a degenerate boundary interval
(spec section 3, Cycle and HalfEdge invariants). -/
def WellFormed (c : Cycle) : Prop :=
  (∀ i : Fin c.half_edges.length,
      (c.half_edges.get i).end_position =
        (c.half_edges.get ⟨((i : ℕ) + 1) % c.half_edges.length, Nat.mod_lt _ i.pos⟩).start_position)
  ∧ ∀ e ∈ c.half_edges, e.boundary.1 ≠ e.boundary.2

/-! ## Shell validation -/

/-- Validation thresholds (ValidationConfig; spec section 4.5). -/
structure ValidationConfig where
  identical_max_distance : ℚ
  distinct_min_distance : ℚ
deriving DecidableEq

/-- Shell validation errors
(src/crates/fj-kernel/src/validate/shell.rs, ShellValidationError). -/
inductive ShellValidationError where
  | notWatertight
  | coincidentEdgesNotIdentical (edge_1 edge_2 : HalfEdge)
  | identicalEdgesNotCoincident
      (edge_1 : HalfEdge) (surface_1 : SurfaceGeometry)
      (edge_2 : HalfEdge) (surface_2 : SurfaceGeometry)
deriving DecidableEq

/-- Sample one edge at a parametric percentage of its boundary interval
(the inner sample function of distances in
src/crates/fj-kernel/src/validate/shell.rs): interpolate the path
coordinate, evaluate the curve, then map through the surface. -/
def sample (edge : HalfEdge) (surface : SurfaceGeometry) (percent : ℚ) : Vec3 :=
  surface.point_from_surface_coords
    (edge.curve.point_from_path_coords
      (edge.boundary.1 + (edge.boundary.2 - edge.boundary.1) * percent))

/-- Distances between corresponding samples of two edges
(src/crates/fj-kernel/src/validate/shell.rs, distances): if the start
samples are farther apart than identical_max_distance the second edge is
sampled in flipped direction; three samples at percentages 0, 1/2 and 1.
Distance comparisons are carried as squared distances (see
sq_distance_to). -/
def distances (config : ValidationConfig)
    (p1 p2 : HalfEdge × SurfaceGeometry) : List ℚ :=
  let flip :=
    decide (config.identical_max_distance ^ 2 <
      sq_distance_to (sample p1.1 p1.2 0) (sample p2.1 p2.2 0))
  (List.range 3).map fun i =>
    let percent : ℚ := (i : ℚ) * (1 / 2)
    sq_distance_to (sample p1.1 p1.2 percent)
      (sample p2.1 p2.2 (if flip then 1 - percent else percent))

/-- All half-edges of a shell paired with the surface of their face
(the edges_and_surfaces collection in validate_edges_coincident). -/
def edges_and_surfaces (shell : Shell) : List (HalfEdge × SurfaceGeometry) :=
  shell.faces.flatMap fun face =>
    ((face.all_cycles.flatMap fun cycle => cycle.half_edges).map fun e => (e, face.surface))

/-- ShellValidationError::validate_edges_coincident
(src/crates/fj-kernel/src/validate/shell.rs): for every ordered pair of the
shell's half-edges, if they refer to the same global edge an
identicalEdgesNotCoincident error is pushed when any sample distance
exceeds identical_max_distance, and if they refer to different global edges
a coincidentEdgesNotIdentical error is pushed when all sample distances are
below distinct_min_distance. -/
def validate_edges_coincident (shell : Shell) (config : ValidationConfig) :
    List ShellValidationError :=
  let eas := edges_and_surfaces shell
  eas.flatMap fun edge =>
    eas.flatMap fun other_edge =>
      if edge.1.global_form = other_edge.1.global_form then
        if (distances config edge other_edge).any
            (fun d => decide (config.identical_max_distance ^ 2 < d)) then
          [.identicalEdgesNotCoincident edge.1 edge.2 other_edge.1 other_edge.2]
        else []
      else
        if (distances config edge other_edge).all
            (fun d => decide (d < config.distinct_min_distance ^ 2)) then
          [.coincidentEdgesNotIdentical edge.1 other_edge.1]
        else []

/-- Global-edge ids referenced by the shell's half-edges, with multiplicity
(the key stream feeding the count map of validate_watertight). -/
def global_edge_ids (shell : Shell) : List ℕ :=
  shell.faces.flatMap fun face =>
    face.all_cycles.flatMap fun cycle =>
      cycle.half_edges.map fun e => e.global_form

/-- ShellValidationError::validate_watertight
(src/crates/fj-kernel/src/validate/shell.rs): count how many half-edges
reference each global edge; push a single notWatertight error when any
referenced global edge has a count different from two. -/
def validate_watertight (shell : Shell) (_config : ValidationConfig) :
    List ShellValidationError :=
  let ids := global_edge_ids shell
  if ids.any (fun id => decide (ids.count id ≠ 2)) then
    [.notWatertight]
  else []

/-- Validate for Shell (src/crates/fj-kernel/src/validate/shell.rs):
coincidence errors first, then the watertightness check. -/
def Shell.validate (shell : Shell) (config : ValidationConfig) :
    List ShellValidationError :=
  validate_edges_coincident shell config ++ validate_watertight shell config

/-! ## Partial half-edge -/

/-- Possibly not yet fully defined curve (MaybeCurve; the module defining it
is not among the shown sources, modelled from its use in
src/crates/fj-kernel/src/partial/objects/edge.rs: a defined variant carrying
a curve, and undefined variants whose path is not yet known). -/
inductive MaybeCurve where
  | defined (curve : Curve)
  | undefinedCircle
  | undefinedLine
deriving DecidableEq

/-- Partial counterpart of HalfEdge
(src/crates/fj-kernel/src/partial/objects/edge.rs, PartialHalfEdge):
optional curve, two optional boundary points, start vertex and global form.
The partial start vertex always builds successfully (a vertex has no
required fields), so it is modelled by its id. -/
structure PartialHalfEdge where
  curve : Option MaybeCurve
  boundary : Option ℚ × Option ℚ
  start_vertex : ℕ
  global_form : ℕ
deriving DecidableEq

/-- Construction contract violations of PartialHalfEdge::build, modelled as
error values: the expect on a missing curve, the panic on an undefined
curve path, and the expect on a missing boundary position. Each value
identifies the offending field. -/
inductive BuildError where
  | missingCurve
  | undefinedCurvePath
  | missingBoundary
deriving DecidableEq

/-- PartialObject::build for PartialHalfEdge
(src/crates/fj-kernel/src/partial/objects/edge.rs): the curve must be
present and defined, both boundary points must be present; panics are
modelled as errors naming the missing field. -/
def PartialHalfEdge.build (p : PartialHalfEdge) : Except BuildError HalfEdge :=
  match p.curve with
  | none => .error .missingCurve
  | some (.defined curve) =>
    match p.boundary.1, p.boundary.2 with
    | some a, some b =>
      .ok { curve := curve, boundary := (a, b),
            start_vertex := p.start_vertex, global_form := p.global_form }
    | _, _ => .error .missingBoundary
  | some _ => .error .undefinedCurvePath

/-- PartialObject::from_full for PartialHalfEdge
(src/crates/fj-kernel/src/partial/objects/edge.rs): wrap the curve as
defined, wrap both boundary points, convert the start vertex, keep the
global form. -/
def PartialHalfEdge.from_full (h : HalfEdge) : PartialHalfEdge :=
  { curve := some (.defined h.curve)
    boundary := (some h.boundary.1, some h.boundary.2)
    start_vertex := h.start_vertex
    global_form := h.global_form }

/-! ## Intersection algorithms -/

/-- Intersection between a curve and a face: the parameter intervals of the
curve lying within the face's boundary, in curve coordinates
(CurveFaceIntersection; its module is not among the shown sources). -/
structure CurveFaceIntersection where
  intervals : List (ℚ × ℚ)
deriving DecidableEq

/-- Emptiness of the interval set. -/
def CurveFaceIntersection.is_empty (x : CurveFaceIntersection) : Bool :=
  x.intervals.isEmpty

/-- Merge two interval sets from two faces' parameterizations of the same
curve. Modelled from the spec: the merge is the intersection of validity,
so each pair of intervals contributes its overlap when nonempty
(the merge operation of CurveFaceIntersection is not among the shown
sources). -/
def CurveFaceIntersection.merge (x y : CurveFaceIntersection) : CurveFaceIntersection :=
  ⟨x.intervals.flatMap fun i1 =>
    y.intervals.filterMap fun i2 =>
      let lo := max i1.1 i2.1
      let hi := min i1.2 i2.2
      if lo < hi then some (lo, hi) else none⟩

/-- Parameter of a line at its crossing with the segment from a to b, when
the crossing lies within the segment (helper of the spec-modelled
curve-face intersection). -/
def line_segment_param (l : Line2) (a b : Vec2) : Option ℚ :=
  let denom := cross2d l.direction (b - a)
  if denom = 0 then none
  else
    let t := cross2d (a - l.origin) (b - a) / denom
    let s := cross2d (l.origin - a) l.direction / cross2d (b - a) l.direction
    if 0 ≤ s ∧ s ≤ 1 then some t else none

/-- Pair a sorted list of crossing parameters into intervals. -/
def pair_into_intervals : List ℚ → List (ℚ × ℚ)
  | a :: b :: rest => (a, b) :: pair_into_intervals rest
  | _ => []

/-- CurveFaceIntersection::compute. Modelled from the spec (its module is
not among the shown sources): collect the parameters at which the curve
crosses the boundary edges of all the face's cycles, sort them, and pair
consecutive crossings into intervals; only line curves and straight
boundary edges produce crossings in this model. -/
def CurveFaceIntersection.compute (curve : Curve) (face : Face) : CurveFaceIntersection :=
  match curve with
  | .circle _ => ⟨[]⟩
  | .line l =>
    let ts := (face.all_cycles.flatMap fun cycle =>
      cycle.half_edges.filterMap fun e =>
        line_segment_param l e.start_position e.end_position)
    ⟨pair_into_intervals (ts.mergeSort (fun a b => decide (a ≤ b)))⟩

/-- Intersection between two surfaces: one curve per surface, both local
representations of the same global curve
(SurfaceSurfaceIntersection; its module is not among the shown sources). -/
structure SurfaceSurfaceIntersection where
  intersection_curves : Curve × Curve
deriving DecidableEq

/-- Express a global point and direction in the local coordinates of a
plane, solving against the plane's u and v spanning vectors via the Gram
system (helper of the spec-modelled surface-surface intersection). -/
def plane_local_line (o uu v p d : Vec3) : Option Line2 :=
  let g11 := dot3 uu uu
  let g12 := dot3 uu v
  let g22 := dot3 v v
  let det := g11 * g22 - g12 * g12
  if det = 0 then none
  else
    let w := p - o
    some
      { origin := ⟨(g22 * dot3 uu w - g12 * dot3 v w) / det,
                   (g11 * dot3 v w - g12 * dot3 uu w) / det⟩
        direction := ⟨(g22 * dot3 uu d - g12 * dot3 v d) / det,
                      (g11 * dot3 v d - g12 * dot3 uu d) / det⟩ }

/-- SurfaceSurfaceIntersection::compute. Modelled from the spec (its module
is not among the shown sources): for two planes, none when they are
parallel, otherwise the intersection line expressed once in each plane's
local coordinates, both parameterizing the same global line with the same
parameter. -/
def SurfaceSurfaceIntersection.compute (s1 s2 : SurfaceGeometry) :
    Option SurfaceSurfaceIntersection :=
  match s1.u, s2.u with
  | .line l1, .line l2 =>
    let n1 := cross3 l1.direction s1.v
    let n2 := cross3 l2.direction s2.v
    let d := cross3 n1 n2
    if d = ⟨0, 0, 0⟩ then none
    else
      let c1 := dot3 n1 l1.origin
      let c2 := dot3 n2 l2.origin
      let p := (1 / dot3 d d) • (c1 • cross3 n2 d + c2 • cross3 d n1)
      match plane_local_line l1.origin l1.direction s1.v p d,
            plane_local_line l2.origin l2.direction s2.v p d with
      | some lc1, some lc2 => some ⟨(.line lc1, .line lc2)⟩
      | _, _ => none
  | _, _ => none

/-- Intersection between two faces
(src/crates/fj-kernel/src/algorithms/intersect/face_face.rs,
FaceFaceIntersection): the two local intersection curves and the merged
interval set in curve coordinates. -/
structure FaceFaceIntersection where
  intersection_curves : Curve × Curve
  intersection_intervals : CurveFaceIntersection
deriving DecidableEq

/-- FaceFaceIntersection::compute
(src/crates/fj-kernel/src/algorithms/intersect/face_face.rs): none when the
surfaces do not intersect; otherwise intersect each local curve with its
face, merge the two interval sets, return none when the merge is empty and
the curves together with the merged intervals otherwise. -/
def FaceFaceIntersection.compute (face1 face2 : Face) : Option FaceFaceIntersection :=
  match SurfaceSurfaceIntersection.compute face1.surface face2.surface with
  | none => none
  | some ssi =>
    let a := CurveFaceIntersection.compute ssi.intersection_curves.1 face1
    let b := CurveFaceIntersection.compute ssi.intersection_curves.2 face2
    let intersection_intervals := a.merge b
    if intersection_intervals.is_empty then none
    else some ⟨ssi.intersection_curves, intersection_intervals⟩

/-! ## Concrete objects used as inputs of witnesses and counterexamples -/

/-- Straight half-edge through two surface points at boundary 0 and 1
(HalfEdgeBuilder::line_segment in src/crates/fj-kernel/src/builder/edge.rs
with the default boundary). -/
def segment2 (p q : Vec2) (sv g : ℕ) : HalfEdge :=
  { curve := .line ⟨p, q - p⟩, boundary := (0, 1), start_vertex := sv, global_form := g }

/-- Triangular cycle on the unit right triangle. -/
def tri : Cycle :=
  ⟨[segment2 ⟨0, 0⟩ ⟨1, 0⟩ 0 0, segment2 ⟨1, 0⟩ ⟨0, 1⟩ 1 1, segment2 ⟨0, 1⟩ ⟨0, 0⟩ 2 2]⟩

/-- First edge of the lune: quarter arc on the circle of radius 6 around
the origin, from (6,0) to (0,6), traversed with increasing parameter. -/
def luneEdge1 : HalfEdge :=
  { curve := .circle ⟨⟨0, 0⟩, ⟨6, 0⟩, ⟨0, 6⟩⟩, boundary := (0, 1),
    start_vertex := 0, global_form := 11 }

/-- Second edge of the lune: arc on the circle of radius 30 around
(-18,-18), from (0,6) back to (6,0), traversed with decreasing parameter. -/
def luneEdge2 : HalfEdge :=
  { curve := .circle ⟨⟨-18, -18⟩, ⟨30, 0⟩, ⟨0, 30⟩⟩, boundary := (1/2, 1/3),
    start_vertex := 1, global_form := 12 }

/-- Closed two-edge cycle bounded by two circular arcs sharing their
endpoints (a lune). -/
def lune : Cycle := ⟨[luneEdge1, luneEdge2]⟩

/-- Single-edge cycle on a full circle. -/
def circle_cycle : Cycle :=
  ⟨[{ curve := .circle ⟨⟨0, 0⟩, ⟨1, 0⟩, ⟨0, 1⟩⟩, boundary := (0, 1),
      start_vertex := 0, global_form := 7 }]⟩

/-- Triangular face through three global points, with the conventional
local coordinates (0,0), (1,0), (0,1) for its corners and the given start
vertex and global edge ids for its three boundary edges. -/
def tri_face (pa pb pc : Vec3) (sa sb sc gab gbc gca : ℕ) : Face :=
  { exterior := ⟨[segment2 ⟨0, 0⟩ ⟨1, 0⟩ sa gab,
                  segment2 ⟨1, 0⟩ ⟨0, 1⟩ sb gbc,
                  segment2 ⟨0, 1⟩ ⟨0, 0⟩ sc gca]⟩
    interiors := []
    surface := plane_from_points pa pb pc
    color := none }

/-- Tetrahedron shell over the four points used by the validation tests:
origin and the three unit points. Global edge ids: 0 for edge 01, 1 for 02,
2 for 03, 3 for 12, 4 for 13, 5 for 23; each is referenced by exactly two
faces, in opposite directions. -/
def tetra : Shell :=
  ⟨[tri_face ⟨0, 0, 0⟩ ⟨1, 0, 0⟩ ⟨0, 1, 0⟩ 0 1 2 0 3 1,
    tri_face ⟨0, 0, 0⟩ ⟨0, 0, 1⟩ ⟨1, 0, 0⟩ 0 3 1 2 4 0,
    tri_face ⟨0, 0, 0⟩ ⟨0, 1, 0⟩ ⟨0, 0, 1⟩ 0 2 3 1 5 2,
    tri_face ⟨1, 0, 0⟩ ⟨0, 0, 1⟩ ⟨0, 1, 0⟩ 1 3 2 4 5 3]⟩

/-- The tetrahedron shell with its first face removed. -/
def tetra_minus : Shell :=
  ⟨[tri_face ⟨0, 0, 0⟩ ⟨0, 0, 1⟩ ⟨1, 0, 0⟩ 0 3 1 2 4 0,
    tri_face ⟨0, 0, 0⟩ ⟨0, 1, 0⟩ ⟨0, 0, 1⟩ 0 2 3 1 5 2,
    tri_face ⟨1, 0, 0⟩ ⟨0, 0, 1⟩ ⟨0, 1, 0⟩ 1 3 2 4 5 3]⟩

/-- Half-edge from (0,0) to (1,0) with global edge id 100. -/
def e10a : HalfEdge :=
  { curve := .line ⟨⟨0, 0⟩, ⟨1, 0⟩⟩, boundary := (0, 1),
    start_vertex := 0, global_form := 100 }

/-- Half-edge over the same segment traversed in the opposite direction,
with the distinct global edge id 101. -/
def e10b : HalfEdge :=
  { curve := .line ⟨⟨1, 0⟩, ⟨-1, 0⟩⟩, boundary := (0, 1),
    start_vertex := 1, global_form := 101 }

/-- Plane surface through the origin spanned by the x and y unit points. -/
def surf10 : SurfaceGeometry := plane_from_points ⟨0, 0, 0⟩ ⟨1, 0, 0⟩ ⟨0, 1, 0⟩

/-- Shell holding the two coincident, oppositely traversed half-edges with
distinct global edges. -/
def shell10 : Shell :=
  ⟨[{ exterior := ⟨[e10a, e10b]⟩
      interiors := []
      surface := surf10
      color := none }]⟩

/-- Validation tolerances used by the concrete validation runs. -/
def cfg0 : ValidationConfig := ⟨1/10, 1/10⟩

/-- Square face with side 1 on the plane through the three given points. -/
def square_face (pa pb pc : Vec3) : Face :=
  { exterior := ⟨[segment2 ⟨0, 0⟩ ⟨1, 0⟩ 0 20, segment2 ⟨1, 0⟩ ⟨1, 1⟩ 1 21,
                  segment2 ⟨1, 1⟩ ⟨0, 1⟩ 2 22, segment2 ⟨0, 1⟩ ⟨0, 0⟩ 3 23]⟩
    interiors := []
    surface := plane_from_points pa pb pc
    color := none }

/-- Unit square face on the plane z = 0. -/
def face_z0 : Face := square_face ⟨0, 0, 0⟩ ⟨1, 0, 0⟩ ⟨0, 1, 0⟩

/-- Unit square face on the parallel plane z = 1. -/
def face_z1 : Face := square_face ⟨0, 0, 1⟩ ⟨1, 0, 1⟩ ⟨0, 1, 1⟩

/-- Partial half-edge whose curve was never set. -/
def partial_no_curve : PartialHalfEdge :=
  { curve := none, boundary := (some 0, some 1), start_vertex := 0, global_form := 0 }

/-- Partial half-edge whose first boundary point was never set. -/
def partial_no_boundary : PartialHalfEdge :=
  { curve := some (.defined (.line ⟨⟨0, 0⟩, ⟨1, 0⟩⟩)), boundary := (none, some 1),
    start_vertex := 0, global_form := 0 }

/-! ## Component lemmas for the vector operations -/

@[simp] theorem Vec2.add_u (a b : Vec2) : (a + b).u = a.u + b.u := rfl
@[simp] theorem Vec2.add_v (a b : Vec2) : (a + b).v = a.v + b.v := rfl
@[simp] theorem Vec2.sub_u (a b : Vec2) : (a - b).u = a.u - b.u := rfl
@[simp] theorem Vec2.sub_v (a b : Vec2) : (a - b).v = a.v - b.v := rfl
@[simp] theorem Vec2.smul_u (q : ℚ) (a : Vec2) : (q • a).u = q * a.u := rfl
@[simp] theorem Vec2.smul_v (q : ℚ) (a : Vec2) : (q • a).v = q * a.v := rfl
@[simp] theorem Vec3.add_x (a b : Vec3) : (a + b).x = a.x + b.x := rfl
@[simp] theorem Vec3.add_y (a b : Vec3) : (a + b).y = a.y + b.y := rfl
@[simp] theorem Vec3.add_z (a b : Vec3) : (a + b).z = a.z + b.z := rfl
@[simp] theorem Vec3.sub_x (a b : Vec3) : (a - b).x = a.x - b.x := rfl
@[simp] theorem Vec3.sub_y (a b : Vec3) : (a - b).y = a.y - b.y := rfl
@[simp] theorem Vec3.sub_z (a b : Vec3) : (a - b).z = a.z - b.z := rfl
@[simp] theorem Vec3.smul_x (q : ℚ) (a : Vec3) : (q • a).x = q * a.x := rfl
@[simp] theorem Vec3.smul_y (q : ℚ) (a : Vec3) : (q • a).y = q * a.y := rfl
@[simp] theorem Vec3.smul_z (q : ℚ) (a : Vec3) : (q • a).z = q * a.z := rfl

/-! ## Helper lemmas about list sums, rotations and reversal -/

theorem list_map_sum_eq_sum_range {α : Type} (f : α → ℚ) (d : α) (xs : List α) :
    (xs.map f).sum = ∑ i ∈ Finset.range xs.length, f (xs.getD i d) := by
  induction xs with
  | nil => simp
  | cons x xs ih =>
    simp only [List.map_cons, List.sum_cons, List.length_cons, Finset.sum_range_succ',
      List.getD_cons_succ, List.getD_cons_zero, ih]
    ring

theorem getD_rotate {α : Type} (l : List α) (k i : ℕ) (h : i < l.length) (d : α) :
    (l.rotate k).getD i d = l.getD ((i + k) % l.length) d := by
  have h1 : i < (l.rotate k).length := by rwa [List.length_rotate]
  have h2 : (i + k) % l.length < l.length := Nat.mod_lt _ (by omega)
  rw [List.getD_eq_getElem _ _ h1, List.getD_eq_getElem _ _ h2]
  exact List.getElem_rotate l k i h1

theorem getD_zip_rotate (l : List HalfEdge) (i : ℕ) (h : i < l.length) :
    (l.zip (l.rotate 1)).getD i (default, default) =
      (l.getD i default, l.getD ((i + 1) % l.length) default) := by
  have hlen : (l.zip (l.rotate 1)).length = l.length := by
    simp [List.length_zip, List.length_rotate]
  have h2 : i < (l.zip (l.rotate 1)).length := by omega
  rw [List.getD_eq_getElem _ _ h2, List.getElem_zip]
  have h3 : (i + 1) % l.length < l.length := Nat.mod_lt _ (by omega)
  rw [List.getD_eq_getElem _ _ h, List.getD_eq_getElem _ _ h3]
  have h4 : i < (l.rotate 1).length := by rwa [List.length_rotate]
  exact congrArg _ (List.getElem_rotate l 1 i h4)

theorem winding_sum_eq_sum_range (l : List HalfEdge) :
    winding_sum l = ∑ i ∈ Finset.range l.length,
      shoelace_term ((l.getD i default).start_position)
        ((l.getD ((i + 1) % l.length) default).start_position) := by
  rw [winding_sum, list_map_sum_eq_sum_range _ (default, default)]
  have hlen : (l.zip (l.rotate 1)).length = l.length := by
    simp [List.length_zip, List.length_rotate]
  rw [hlen]
  refine Finset.sum_congr rfl fun i hi => ?_
  rw [getD_zip_rotate l i (Finset.mem_range.1 hi)]

theorem winding_sum_eq_shoelace_sum (c : Cycle) : winding_sum c.half_edges = shoelace_sum c :=
  winding_sum_eq_sum_range c.half_edges

theorem sum_range_cyclic_shift (n k : ℕ) (hn : 0 < n) (f : ℕ → ℚ) :
    ∑ i ∈ Finset.range n, f ((i + k) % n) = ∑ i ∈ Finset.range n, f (i % n) := by
  haveI : NeZero n := ⟨hn.ne.symm⟩
  rw [← Fin.sum_univ_eq_sum_range (fun i => f ((i + k) % n)) n,
    ← Fin.sum_univ_eq_sum_range (fun i => f (i % n)) n]
  have key : ∀ i : Fin n, f ((i.val + k) % n) = f ((i + (⟨k % n, Nat.mod_lt _ hn⟩ : Fin n)).val) := by
    intro i
    congr 1
    rw [Fin.val_add]
    show (i.val + k) % n = (i.val + k % n) % n
    conv_lhs => rw [Nat.add_mod]
    conv_rhs => rw [Nat.add_mod]
    rw [Nat.mod_mod]
  calc (∑ i : Fin n, f ((i.val + k) % n))
      = ∑ i : Fin n, f ((i + (⟨k % n, Nat.mod_lt _ hn⟩ : Fin n)).val) :=
        Finset.sum_congr rfl fun i _ => key i
    _ = ∑ i : Fin n, f i.val :=
        Fintype.sum_equiv (Equiv.addRight (⟨k % n, Nat.mod_lt _ hn⟩ : Fin n))
          _ _ (fun _ => rfl)
    _ = ∑ i : Fin n, f (i.val % n) :=
        Finset.sum_congr rfl fun i _ => by rw [Nat.mod_eq_of_lt i.isLt]

theorem winding_sum_rotate (l : List HalfEdge) (k : ℕ) :
    winding_sum (l.rotate k) = winding_sum l := by
  rcases Nat.eq_zero_or_pos l.length with h0 | hn
  · rw [List.length_eq_zero] at h0
    subst h0
    simp [winding_sum]
  · rw [winding_sum_eq_sum_range, winding_sum_eq_sum_range, List.length_rotate]
    have step1 : ∀ i ∈ Finset.range l.length,
        shoelace_term (((l.rotate k).getD i default).start_position)
          (((l.rotate k).getD ((i + 1) % l.length) default).start_position)
        = (fun r => shoelace_term ((l.getD r default).start_position)
            ((l.getD ((r + 1) % l.length) default).start_position)) ((i + k) % l.length) := by
      intro i hi
      have hi2 := Finset.mem_range.1 hi
      rw [getD_rotate l k i hi2, getD_rotate l k ((i + 1) % l.length) (Nat.mod_lt _ hn)]
      simp only
      congr 2
      rw [Nat.mod_add_mod, Nat.mod_add_mod, Nat.add_right_comm]
    rw [Finset.sum_congr rfl step1,
      sum_range_cyclic_shift l.length k hn
        (fun r => shoelace_term ((l.getD r default).start_position)
          ((l.getD ((r + 1) % l.length) default).start_position))]
    refine Finset.sum_congr rfl fun i hi => ?_
    rw [Nat.mod_eq_of_lt (Finset.mem_range.1 hi)]

theorem shoelace_term_antisymm (a b : Vec2) : shoelace_term a b = -shoelace_term b a := by
  simp only [shoelace_term]
  ring

theorem reversed_half_edge_start (a b : HalfEdge) :
    (reversed_half_edge a b).start_position = a.end_position := rfl

theorem length_reverse_cycle (c : Cycle) :
    c.reverse.half_edges.length = c.half_edges.length := by
  simp [Cycle.reverse, List.length_reverse, List.length_map, List.length_zip, List.length_rotate]

theorem mod_sub_index_inv (n i : ℕ) (hi : i < n) : (n - (n - i) % n) % n = i := by
  rcases Nat.eq_zero_or_pos i with h0 | hpos
  · subst h0
    simp [Nat.mod_self]
  · have h1 : n - i < n := by omega
    rw [Nat.mod_eq_of_lt h1]
    have h2 : n - (n - i) = i := by omega
    rw [h2, Nat.mod_eq_of_lt hi]

theorem getElem_index_congr {α : Type} (l : List α) {i j : ℕ} (hij : i = j)
    (hi : i < l.length) : getElem l i hi = getElem l j (hij ▸ hi) := by
  cases hij
  rfl

theorem getElem_reverse_cycle (c : Cycle) (i : ℕ) (h : i < c.reverse.half_edges.length) :
    getElem c.reverse.half_edges i h =
      reversed_half_edge
        (getElem c.half_edges (c.half_edges.length - 1 - i) (by
          have := length_reverse_cycle c; omega))
        (getElem c.half_edges ((c.half_edges.length - i) % c.half_edges.length) (by
          have := length_reverse_cycle c
          exact Nat.mod_lt _ (by omega))) := by
  have hn : i < c.half_edges.length := by have := length_reverse_cycle c; omega
  have hzl : (c.half_edges.zip (c.half_edges.rotate 1)).length = c.half_edges.length := by
    simp [List.length_zip, List.length_rotate]
  have hml : ((c.half_edges.zip (c.half_edges.rotate 1)).map
      fun p => reversed_half_edge p.1 p.2).length = c.half_edges.length := by
    simp [hzl]
  simp only [Cycle.reverse]
  rw [List.getElem_reverse, List.getElem_map, List.getElem_zip]
  refine congrArg₂ reversed_half_edge ?_ ?_
  · exact getElem_index_congr c.half_edges (by omega) _
  · rw [List.getElem_rotate]
    exact getElem_index_congr c.half_edges (by
      have hmm : ((c.half_edges.zip (c.half_edges.rotate 1)).map
          fun p => reversed_half_edge p.1 p.2).length - 1 - i + 1 =
          c.half_edges.length - i := by omega
      rw [hmm]) _

theorem getD_reverse_cycle (c : Cycle) (i : ℕ) (h : i < c.half_edges.length) (d : HalfEdge) :
    c.reverse.half_edges.getD i d =
      reversed_half_edge (c.half_edges.getD (c.half_edges.length - 1 - i) d)
        (c.half_edges.getD ((c.half_edges.length - i) % c.half_edges.length) d) := by
  have h1 : i < c.reverse.half_edges.length := by rw [length_reverse_cycle]; omega
  rw [List.getD_eq_getElem _ _ h1, getElem_reverse_cycle c i h1,
    List.getD_eq_getElem _ _ (show c.half_edges.length - 1 - i < c.half_edges.length by omega),
    List.getD_eq_getElem _ _ (Nat.mod_lt _ (show 0 < c.half_edges.length by omega))]

theorem winding_sum_reverse (c : Cycle)
    (hwf : ∀ i : Fin c.half_edges.length,
      (c.half_edges.get i).end_position =
        (c.half_edges.get
          ⟨((i : ℕ) + 1) % c.half_edges.length, Nat.mod_lt _ i.pos⟩).start_position) :
    winding_sum c.reverse.half_edges = -winding_sum c.half_edges := by
  rcases Nat.eq_zero_or_pos c.half_edges.length with h0 | hn
  · have hrev := length_reverse_cycle c
    rw [winding_sum_eq_sum_range, winding_sum_eq_sum_range, hrev, h0]
    simp
  · have hclose : ∀ j, j < c.half_edges.length →
        (c.half_edges.getD j default).end_position =
          (c.half_edges.getD ((j + 1) % c.half_edges.length) default).start_position := by
      intro j hj
      have := hwf ⟨j, hj⟩
      rwa [List.get_eq_getElem, List.get_eq_getElem,
        ← List.getD_eq_getElem c.half_edges default hj,
        ← List.getD_eq_getElem c.half_edges default (Nat.mod_lt _ hn)] at this
    rw [winding_sum_eq_sum_range, winding_sum_eq_sum_range, length_reverse_cycle]
    have step : ∀ i ∈ Finset.range c.half_edges.length,
        shoelace_term ((c.reverse.half_edges.getD i default).start_position)
          ((c.reverse.half_edges.getD ((i + 1) % c.half_edges.length) default).start_position)
        = -(fun r => shoelace_term ((c.half_edges.getD r default).start_position)
            ((c.half_edges.getD ((r + 1) % c.half_edges.length) default).start_position))
            (c.half_edges.length - 1 - i) := by
      intro i hi
      have hi2 := Finset.mem_range.1 hi
      rw [getD_reverse_cycle c i hi2,
        getD_reverse_cycle c ((i + 1) % c.half_edges.length) (Nat.mod_lt _ hn),
        reversed_half_edge_start, reversed_half_edge_start,
        hclose (c.half_edges.length - 1 - i) (by omega),
        hclose (c.half_edges.length - 1 - (i + 1) % c.half_edges.length) (by omega)]
      have hmodlt : (i + 1) % c.half_edges.length < c.half_edges.length := Nat.mod_lt _ hn
      have idx1 : (c.half_edges.length - 1 - i + 1) % c.half_edges.length =
          (c.half_edges.length - i) % c.half_edges.length := by congr 1; omega
      have idx2 : (c.half_edges.length - 1 - (i + 1) % c.half_edges.length + 1) %
            c.half_edges.length =
          (c.half_edges.length - (i + 1) % c.half_edges.length) % c.half_edges.length := by
        congr 1
        omega
      have idx3 : (c.half_edges.length - (i + 1) % c.half_edges.length) % c.half_edges.length =
          c.half_edges.length - 1 - i := by
        rcases Nat.lt_or_ge (i + 1) c.half_edges.length with hlt | hge
        · rw [Nat.mod_eq_of_lt hlt, Nat.mod_eq_of_lt (by omega)]
          omega
        · have hieq : (i + 1) % c.half_edges.length = 0 := by
            have : i + 1 = c.half_edges.length := by omega
            rw [this, Nat.mod_self]
          rw [hieq, Nat.sub_zero, Nat.mod_self]
          omega
      have idx4 : (c.half_edges.length - i) % c.half_edges.length =
          (c.half_edges.length - 1 - i + 1) % c.half_edges.length := by congr 1; omega
      rw [idx1, idx2, idx3]
      simp only
      rw [idx4]
      exact shoelace_term_antisymm _ _
    rw [Finset.sum_congr rfl step]
    rw [Finset.sum_neg_distrib]
    rw [Finset.sum_range_reflect
      (fun r => shoelace_term ((c.half_edges.getD r default).start_position)
        ((c.half_edges.getD ((r + 1) % c.half_edges.length) default).start_position))
      c.half_edges.length]

/-- Claim C8: building a partial half-edge fails when the curve or either
boundary point was never set, the failure identifies the missing field
(missing curve and missing boundary are reported as distinct errors, and an
unset curve path is its own error), and no required field of a successfully
built half-edge is silently defaulted: every field of the result comes from
the partial object. -/
theorem claim_C8 (p : PartialHalfEdge) :
    (p.curve = none → p.build = .error .missingCurve) ∧
    (∀ curve, p.curve = some (.defined curve) →
      (p.boundary.1 = none ∨ p.boundary.2 = none) → p.build = .error .missingBoundary) ∧
    ((p.curve = none ∨ p.boundary.1 = none ∨ p.boundary.2 = none) →
      ∀ h, p.build ≠ .ok h) ∧
    (∀ h, p.build = .ok h →
      p.curve = some (.defined h.curve) ∧
      p.boundary.1 = some h.boundary.1 ∧ p.boundary.2 = some h.boundary.2 ∧
      h.start_vertex = p.start_vertex ∧ h.global_form = p.global_form) := by
  obtain ⟨curve, ⟨b1, b2⟩, sv, g⟩ := p
  cases curve with
  | none => simp [PartialHalfEdge.build]
  | some mc =>
    cases mc with
    | defined cu => cases b1 <;> cases b2 <;> simp [PartialHalfEdge.build]
    | undefinedCircle => simp [PartialHalfEdge.build]
    | undefinedLine => simp [PartialHalfEdge.build]

/-- Witness for claim C8: concrete partial half-edges with a missing curve
and with a missing boundary point fail with the error naming that field. -/
theorem claim_C8_witness :
    partial_no_curve.curve = none ∧
    partial_no_curve.build = .error .missingCurve ∧
    partial_no_boundary.build = .error .missingBoundary :=
  ⟨rfl, (claim_C8 partial_no_curve).1 rfl,
    (claim_C8 partial_no_boundary).2.1 (.line ⟨⟨0, 0⟩, ⟨1, 0⟩⟩) rfl (Or.inl rfl)⟩

/-- Claim C9: converting a full half-edge to a partial one with from_full
and building it back yields the original half-edge: curve, boundary, start
vertex and global edge all round-trip. -/
theorem claim_C9 (h : HalfEdge) : (PartialHalfEdge.from_full h).build = .ok h := rfl

/-- Claim C3: face-face intersection returns none exactly when the two
surfaces do not intersect or the merged curve-face interval set is empty,
both being ordinary absent results of an Option; otherwise it returns the
two local intersection curves produced by the surface-surface intersection
together with the merged interval set. -/
theorem claim_C3 (face1 face2 : Face) :
    (FaceFaceIntersection.compute face1 face2 = none ↔
      SurfaceSurfaceIntersection.compute face1.surface face2.surface = none ∨
      ∃ ssi, SurfaceSurfaceIntersection.compute face1.surface face2.surface = some ssi ∧
        ((CurveFaceIntersection.compute ssi.intersection_curves.1 face1).merge
          (CurveFaceIntersection.compute ssi.intersection_curves.2 face2)).is_empty = true) ∧
    (∀ r, FaceFaceIntersection.compute face1 face2 = some r →
      ∃ ssi, SurfaceSurfaceIntersection.compute face1.surface face2.surface = some ssi ∧
        r.intersection_curves = ssi.intersection_curves ∧
        r.intersection_intervals =
          (CurveFaceIntersection.compute ssi.intersection_curves.1 face1).merge
            (CurveFaceIntersection.compute ssi.intersection_curves.2 face2) ∧
        r.intersection_intervals.is_empty = false) := by
  cases hssi : SurfaceSurfaceIntersection.compute face1.surface face2.surface with
  | none => simp [FaceFaceIntersection.compute, hssi]
  | some ssi =>
    by_cases hemp :
        ((CurveFaceIntersection.compute ssi.intersection_curves.1 face1).merge
          (CurveFaceIntersection.compute ssi.intersection_curves.2 face2)).is_empty = true
    · constructor
      · simp [FaceFaceIntersection.compute, hssi, hemp]
      · intro r hr
        simp [FaceFaceIntersection.compute, hssi, hemp] at hr
    · constructor
      · simp [FaceFaceIntersection.compute, hssi, hemp]
      · intro r hr
        simp only [FaceFaceIntersection.compute, hssi] at hr
        rw [if_neg hemp] at hr
        cases hr
        exact ⟨ssi, rfl, rfl, rfl, by simpa using hemp⟩

/-- Witness for claim C3: on two concrete faces lying on parallel planes
the characterization is instantiated; their surface-surface intersection is
none, so the face-face intersection is none. -/
theorem claim_C3_witness :
    (FaceFaceIntersection.compute face_z0 face_z1 = none ↔
      SurfaceSurfaceIntersection.compute face_z0.surface face_z1.surface = none ∨
      ∃ ssi, SurfaceSurfaceIntersection.compute face_z0.surface face_z1.surface = some ssi ∧
        ((CurveFaceIntersection.compute ssi.intersection_curves.1 face_z0).merge
          (CurveFaceIntersection.compute ssi.intersection_curves.2 face_z1)).is_empty = true) ∧
    FaceFaceIntersection.compute face_z0 face_z1 = none := by
  have h := (claim_C3 face_z0 face_z1).1
  have hnone : SurfaceSurfaceIntersection.compute face_z0.surface face_z1.surface = none := by
    simp [SurfaceSurfaceIntersection.compute, face_z0, face_z1, square_face,
      plane_from_points, cross3]
  exact ⟨h, h.mpr (Or.inl hnone)⟩

/-- Claim C5: for a cycle with fewer than three half-edges the winding is
derived from the first edge: a circle yields counter-clockwise exactly when
the boundary direction sign matches the sign of the cross product of the
circle's two radius vectors and clockwise otherwise, and a line curve is a
construction error. -/
theorem claim_C5 (c : Cycle) (first : HalfEdge) (h3 : c.half_edges.length < 3)
    (hh : c.half_edges.head? = some first) :
    (∀ circ, first.curve = .circle circ →
      c.winding = .ok (if (first.boundary.1 < first.boundary.2 ↔ 0 < cross2d circ.a circ.b)
        then .ccw else .cw)) ∧
    (∀ l, first.curve = .line l → c.winding = .error .notCircle) := by
  constructor
  · intro circ hc
    simp only [Cycle.winding, if_pos h3, hh, hc]
    split <;> rfl
  · intro l hc
    simp only [Cycle.winding, if_pos h3, hh, hc]

/-- Witness for claim C5: the single-edge cycle on a circle has fewer than
three half-edges and its winding follows the sign rule. -/
theorem claim_C5_witness :
    circle_cycle.half_edges.length < 3 ∧
    circle_cycle.half_edges.head? = some
      { curve := .circle ⟨⟨0, 0⟩, ⟨1, 0⟩, ⟨0, 1⟩⟩, boundary := (0, 1),
        start_vertex := 0, global_form := 7 } ∧
    (∀ circ,
      ({ curve := .circle ⟨⟨0, 0⟩, ⟨1, 0⟩, ⟨0, 1⟩⟩, boundary := (0, 1),
         start_vertex := 0, global_form := 7 } : HalfEdge).curve = .circle circ →
      circle_cycle.winding = .ok
        (if ((0:ℚ) < 1 ↔ 0 < cross2d circ.a circ.b) then .ccw else .cw)) :=
  ⟨by decide, rfl, (claim_C5 circle_cycle _ (by decide) rfl).1⟩

/-- Claim C4: for a cycle with at least three half-edges the winding is
decided by the shoelace sum over consecutive start positions in circular
order: a positive sum yields clockwise, a negative sum counter-clockwise,
and an exactly zero sum is reported as an invalid cycle, never silently
resolved. -/
theorem claim_C4 (c : Cycle) (h3 : 3 ≤ c.half_edges.length) :
    (0 < shoelace_sum c → c.winding = .ok .cw) ∧
    (shoelace_sum c < 0 → c.winding = .ok .ccw) ∧
    (shoelace_sum c = 0 → c.winding = .error .zeroSum) := by
  have hn : ¬ c.half_edges.length < 3 := by omega
  refine ⟨fun hs => ?_, fun hs => ?_, fun hs => ?_⟩ <;>
    (simp only [Cycle.winding, if_neg hn, winding_sum_eq_shoelace_sum])
  · rw [if_pos hs]
  · rw [if_neg (asymm hs), if_pos hs]
  · rw [if_neg (by rw [hs]; exact lt_irrefl 0), if_neg (by rw [hs]; exact lt_irrefl 0)]

/-- Witness for claim C4: the triangle cycle has three half-edges and a
negative shoelace sum, so its winding is counter-clockwise. -/
theorem claim_C4_witness :
    3 ≤ tri.half_edges.length ∧
    ((0 < shoelace_sum tri → tri.winding = .ok .cw) ∧
      (shoelace_sum tri < 0 → tri.winding = .ok .ccw) ∧
      (shoelace_sum tri = 0 → tri.winding = .error .zeroSum)) :=
  ⟨by decide, claim_C4 tri (by decide)⟩

theorem cycle_eq_of_half_edges {c d : Cycle} (h : c.half_edges = d.half_edges) : c = d := by
  cases c
  cases d
  cases h
  rfl

/-- Claim C6: reversing a cycle twice yields a cycle structurally equal to
the original: the half-edges' curves, boundaries, start vertices and global
forms all round-trip, for every cycle. -/
theorem claim_C6 (c : Cycle) : c.reverse.reverse = c := by
  apply cycle_eq_of_half_edges
  apply List.ext_getElem
  · rw [length_reverse_cycle, length_reverse_cycle]
  · intro i h1 h2
    rw [getElem_reverse_cycle c.reverse i h1]
    rw [getElem_reverse_cycle c, getElem_reverse_cycle c]
    simp only [reversed_half_edge, length_reverse_cycle]
    rw [getElem_index_congr c.half_edges
      (show c.half_edges.length - 1 - (c.half_edges.length - 1 - i) = i by omega)]
    rw [getElem_index_congr c.half_edges (mod_sub_index_inv c.half_edges.length i h2)]

/-- Helper: winding of the triangle cycle. -/
theorem tri_winding : tri.winding = .ok .ccw := by
  simp [Cycle.winding, tri, segment2, winding_sum, shoelace_term, HalfEdge.start_position,
    Curve.point_from_path_coords, List.rotate]

/-- Helper: the triangle cycle is well-formed. -/
theorem tri_wellFormed : WellFormed tri := by
  constructor
  · intro i
    fin_cases i <;> ext <;>
      simp [tri, segment2, HalfEdge.start_position, HalfEdge.end_position,
        Curve.point_from_path_coords]
  · intro e he
    simp only [tri, List.mem_cons, List.not_mem_nil, or_false] at he
    rcases he with h | h | h <;> subst h <;> simp [segment2]

/-- Claim C7 (amended): for every well-formed cycle whose number of
half-edges is not two and whose winding is defined, the winding is
invariant under every cyclic rotation of the half-edge order, and reversing
the cycle flips the winding exactly once. The two-edge case is excluded: a
well-formed two-edge cycle of two circular arcs can change its winding
under rotation (see the counterexample). -/
theorem claim_C7 (c : Cycle) (hwf : WellFormed c) (h2 : c.half_edges.length ≠ 2)
    (w : Winding) (hw : c.winding = .ok w) :
    (∀ k, (c.rotateEdges k).winding = .ok w) ∧ c.reverse.winding = .ok w.flip := by
  by_cases hge : 3 ≤ c.half_edges.length
  · have hn : ¬ c.half_edges.length < 3 := by omega
    simp only [Cycle.winding, if_neg hn] at hw
    rcases lt_trichotomy 0 (winding_sum c.half_edges) with hpos | hzero | hneg
    · rw [if_pos hpos] at hw
      cases hw
      constructor
      · intro k
        simp only [Cycle.winding, Cycle.rotateEdges, winding_sum_rotate, if_pos hpos]
        rw [if_neg (show ¬ (c.half_edges.rotate k).length < 3 by
          rw [List.length_rotate]; omega)]
      · have hlen : ¬ c.reverse.half_edges.length < 3 := by
          rw [length_reverse_cycle]
          omega
        have hsum : winding_sum c.reverse.half_edges = -winding_sum c.half_edges :=
          winding_sum_reverse c hwf.1
        simp only [Cycle.winding, if_neg hlen, hsum]
        rw [if_neg (by simp only [not_lt]; linarith), if_pos (by linarith)]
        rfl
    · rw [if_neg (by rw [← hzero]; exact lt_irrefl 0),
        if_neg (by rw [← hzero]; exact lt_irrefl 0)] at hw
      exact absurd hw (by simp)
    · rw [if_neg (asymm hneg), if_pos hneg] at hw
      cases hw
      constructor
      · intro k
        simp only [Cycle.winding, Cycle.rotateEdges, winding_sum_rotate]
        rw [if_neg (show ¬ (c.half_edges.rotate k).length < 3 by
          rw [List.length_rotate]; omega)]
        rw [if_neg (asymm hneg), if_pos hneg]
      · have hlen : ¬ c.reverse.half_edges.length < 3 := by
          rw [length_reverse_cycle]
          omega
        have hsum : winding_sum c.reverse.half_edges = -winding_sum c.half_edges :=
          winding_sum_reverse c hwf.1
        simp only [Cycle.winding, if_neg hlen, hsum]
        rw [if_pos (by linarith)]
        rfl
  · obtain ⟨l⟩ := c
    cases l with
    | nil => simp [Cycle.winding] at hw
    | cons e rest =>
      cases rest with
      | cons e2 rest2 =>
        cases rest2 with
        | nil => simp at h2
        | cons e3 rest3 =>
          exfalso
          apply hge
          simp only [List.length_cons]
          omega
      | nil =>
        have hnd : e.boundary.1 ≠ e.boundary.2 := hwf.2 e (by simp)
        have hflip : (e.boundary.2 < e.boundary.1) ↔ ¬ (e.boundary.1 < e.boundary.2) :=
          ⟨fun h1 hcon => absurd h1 (asymm hcon), fun h1 => hnd.lt_or_lt.resolve_left h1⟩
        have hrotl : ∀ k, ([e] : List HalfEdge).rotate k = [e] := by
          intro k
          rw [← List.rotate_mod]
          simp [Nat.mod_one]
        have hwindc : ∀ (x : HalfEdge) (cc : Circle2), x.curve = .circle cc →
            (Cycle.mk [x]).winding =
              (if (x.boundary.1 < x.boundary.2 ↔ 0 < cross2d cc.a cc.b)
                then .ok .ccw else .ok .cw) := by
          intro x cc hx
          have hlt : (Cycle.mk [x]).half_edges.length < 3 := by simp
          simp only [Cycle.winding, if_pos hlt, List.head?_cons, hx]
        have hwindl : ∀ (x : HalfEdge) (ll : Line2), x.curve = .line ll →
            (Cycle.mk [x]).winding = .error .notCircle := by
          intro x ll hx
          have hlt : (Cycle.mk [x]).half_edges.length < 3 := by simp
          simp only [Cycle.winding, if_pos hlt, List.head?_cons, hx]
        cases hcu : e.curve with
        | line ln =>
          rw [hwindl e ln hcu] at hw
          exact absurd hw (by simp)
        | circle circ =>
          rw [hwindc e circ hcu] at hw
          constructor
          · intro k
            have hid : (Cycle.mk [e]).rotateEdges k = Cycle.mk [e] := by
              simp only [Cycle.rotateEdges, hrotl k]
            rw [hid, hwindc e circ hcu]
            exact hw
          · have hrev : (Cycle.mk [e]).reverse = Cycle.mk [reversed_half_edge e e] := by
              simp [Cycle.reverse, hrotl 1]
            rw [hrev, hwindc (reversed_half_edge e e) circ hcu]
            simp only [reversed_half_edge]
            by_cases hdir : e.boundary.1 < e.boundary.2 <;>
              by_cases hcross : 0 < cross2d circ.a circ.b
            · rw [if_pos (iff_of_true hdir hcross)] at hw
              cases hw
              rw [if_neg (fun hiff => absurd (hiff.mpr hcross) (asymm hdir))]
              rfl
            · rw [if_neg (fun hiff => hcross (hiff.mp hdir))] at hw
              cases hw
              rw [if_pos (iff_of_false (asymm hdir) hcross)]
              rfl
            · have hb : e.boundary.2 < e.boundary.1 := hflip.mpr hdir
              rw [if_neg (fun hiff => hdir (hiff.mpr hcross))] at hw
              cases hw
              rw [if_pos (iff_of_true hb hcross)]
              rfl
            · have hb : e.boundary.2 < e.boundary.1 := hflip.mpr hdir
              rw [if_pos (iff_of_false hdir hcross)] at hw
              cases hw
              rw [if_neg (fun hiff => hcross (hiff.mp hb))]
              rfl

/-- Helper: the lune is a well-formed cycle: its two circular arcs share
their endpoints and have nondegenerate boundary intervals. -/
theorem lune_wellFormed : WellFormed lune := by
  constructor
  · intro i
    fin_cases i <;> ext <;>
      simp [lune, luneEdge1, luneEdge2, HalfEdge.start_position, HalfEdge.end_position,
        Curve.point_from_path_coords, rcos, rsin] <;> norm_num
  · intro e he
    simp only [lune, List.mem_cons, List.not_mem_nil, or_false] at he
    rcases he with h | h <;> subst h <;> norm_num [luneEdge1, luneEdge2]

/-- Counterexample for claim C7: the lune is a well-formed two-edge cycle,
but rotating its half-edge order by one changes the computed winding, since
the short-cycle branch of winding only consults the first edge. -/
theorem claim_C7_counterexample :
    WellFormed lune ∧ (lune.rotateEdges 1).winding ≠ lune.winding := by
  refine ⟨lune_wellFormed, ?_⟩
  have h1 : lune.winding = .ok .ccw := by
    simp [Cycle.winding, lune, luneEdge1, luneEdge2, cross2d]
  have h2 : (lune.rotateEdges 1).winding = .ok .cw := by
    simp [Cycle.winding, Cycle.rotateEdges, lune, luneEdge1, luneEdge2, cross2d, List.rotate]
    norm_num
  rw [h1, h2]
  simp

/-- Witness for claim C7: the triangle cycle is well-formed, has three
half-edges and counter-clockwise winding; rotation preserves and reversal
flips its winding. -/
theorem claim_C7_witness :
    WellFormed tri ∧ tri.half_edges.length ≠ 2 ∧ tri.winding = .ok .ccw ∧
    ((∀ k, (tri.rotateEdges k).winding = .ok .ccw) ∧
      tri.reverse.winding = .ok (Winding.ccw.flip)) :=
  ⟨tri_wellFormed, by decide, tri_winding,
    claim_C7 tri tri_wellFormed (by decide) .ccw tri_winding⟩

/-- Helper: the edge-coincidence check never produces a notWatertight
error; only the watertightness check does. -/
theorem notWatertight_not_mem_coincident (shell : Shell) (config : ValidationConfig) :
    ShellValidationError.notWatertight ∉ validate_edges_coincident shell config := by
  intro hmem
  simp only [validate_edges_coincident, List.mem_flatMap] at hmem
  obtain ⟨p1, hp1, p2, hp2, h⟩ := hmem
  split_ifs at h <;> simp at h

set_option maxHeartbeats 2000000 in
/-- Claim C2: shell watertightness validation reports a notWatertight error
exactly when some referenced global edge is referenced by a number of
half-edges different from two; the tetrahedron shell validates cleanly
(it is a valid shell), and the tetrahedron with one face removed yields
exactly one notWatertight error from full validation. -/
theorem claim_C2 :
    (∀ (shell : Shell) (config : ValidationConfig),
      ShellValidationError.notWatertight ∈ validate_watertight shell config ↔
        ∃ g ∈ global_edge_ids shell, (global_edge_ids shell).count g ≠ 2) ∧
    tetra.validate cfg0 = [] ∧
    (tetra_minus.validate cfg0).count .notWatertight = 1 := by
  refine ⟨fun shell config => ?_, ?_, ?_⟩
  · simp only [validate_watertight]
    split_ifs with hcond
    · simp only [List.any_eq_true, decide_eq_true_eq] at hcond
      exact iff_of_true (List.mem_singleton.mpr rfl) hcond
    · simp only [List.any_eq_true, decide_eq_true_eq] at hcond
      exact iff_of_false (List.not_mem_nil _) hcond
  · have hco : validate_edges_coincident tetra cfg0 = [] := by
      simp [validate_edges_coincident, edges_and_surfaces, tetra, tri_face, segment2,
        Face.all_cycles, distances, sample, sq_distance_to,
        SurfaceGeometry.point_from_surface_coords, GlobalPath.point_from_path_coords,
        Curve.point_from_path_coords, plane_from_points, cfg0, List.range_succ]
      norm_num
    have hwt : validate_watertight tetra cfg0 = [] := by decide
    rw [Shell.validate, hco, hwt]
    rfl
  · rw [Shell.validate, List.count_append,
      List.count_eq_zero.mpr (notWatertight_not_mem_coincident tetra_minus cfg0)]
    decide

/-- Witness for claim C2: the concrete conjuncts of the theorem,
instantiated. -/
theorem claim_C2_witness :
    tetra.validate cfg0 = [] ∧
    (tetra_minus.validate cfg0).count .notWatertight = 1 :=
  ⟨claim_C2.2.1, claim_C2.2.2⟩

/-- Helper: the squared distance of a point to itself is zero. -/
theorem sq_distance_self (p : Vec3) : sq_distance_to p p = 0 := by
  simp [sq_distance_to]

/-- Helper: membership of an identicalEdgesNotCoincident error in the
coincidence validation output, characterized over the shell's edge list. -/
theorem mem_validate_identical_iff (shell : Shell) (config : ValidationConfig)
    (e1 : HalfEdge) (s1 : SurfaceGeometry) (e2 : HalfEdge) (s2 : SurfaceGeometry) :
    ShellValidationError.identicalEdgesNotCoincident e1 s1 e2 s2 ∈
        validate_edges_coincident shell config ↔
      ((e1, s1) ∈ edges_and_surfaces shell ∧ (e2, s2) ∈ edges_and_surfaces shell ∧
        e1.global_form = e2.global_form ∧
        ((distances config (e1, s1) (e2, s2)).any
          fun d => decide (config.identical_max_distance ^ 2 < d)) = true) := by
  constructor
  · intro hmem
    simp only [validate_edges_coincident, List.mem_flatMap] at hmem
    obtain ⟨p1, hp1, p2, hp2, hin⟩ := hmem
    by_cases hg : p1.1.global_form = p2.1.global_form
    · rw [if_pos hg] at hin
      by_cases hany : ((distances config p1 p2).any
          fun d => decide (config.identical_max_distance ^ 2 < d)) = true
      · rw [if_pos hany] at hin
        simp only [List.mem_singleton,
          ShellValidationError.identicalEdgesNotCoincident.injEq] at hin
        obtain ⟨he1, hs1, he2, hs2⟩ := hin
        subst he1
        subst hs1
        subst he2
        subst hs2
        exact ⟨hp1, hp2, hg, hany⟩
      · rw [if_neg hany] at hin
        exact absurd hin (List.not_mem_nil _)
    · rw [if_neg hg] at hin
      split_ifs at hin <;> simp at hin
  · rintro ⟨h1, h2, hg, hany⟩
    simp only [validate_edges_coincident, List.mem_flatMap]
    refine ⟨(e1, s1), h1, (e2, s2), h2, ?_⟩
    rw [if_pos hg, if_pos hany]
    simp

/-- Helper: membership of a coincidentEdgesNotIdentical error in the
coincidence validation output, characterized over the shell's edge list. -/
theorem mem_validate_coincident_iff (shell : Shell) (config : ValidationConfig)
    (e1 e2 : HalfEdge) :
    ShellValidationError.coincidentEdgesNotIdentical e1 e2 ∈
        validate_edges_coincident shell config ↔
      ∃ s1 s2, (e1, s1) ∈ edges_and_surfaces shell ∧ (e2, s2) ∈ edges_and_surfaces shell ∧
        e1.global_form ≠ e2.global_form ∧
        ((distances config (e1, s1) (e2, s2)).all
          fun d => decide (d < config.distinct_min_distance ^ 2)) = true := by
  constructor
  · intro hmem
    simp only [validate_edges_coincident, List.mem_flatMap] at hmem
    obtain ⟨p1, hp1, p2, hp2, hin⟩ := hmem
    by_cases hg : p1.1.global_form = p2.1.global_form
    · rw [if_pos hg] at hin
      split_ifs at hin <;> simp at hin
    · rw [if_neg hg] at hin
      by_cases hall : ((distances config p1 p2).all
          fun d => decide (d < config.distinct_min_distance ^ 2)) = true
      · rw [if_pos hall] at hin
        simp only [List.mem_singleton,
          ShellValidationError.coincidentEdgesNotIdentical.injEq] at hin
        obtain ⟨he1, he2⟩ := hin
        subst he1
        subst he2
        exact ⟨p1.2, p2.2, hp1, hp2, hg, hall⟩
      · rw [if_neg hall] at hin
        exact absurd hin (List.not_mem_nil _)
  · rintro ⟨s1, s2, h1, h2, hg, hall⟩
    simp only [validate_edges_coincident, List.mem_flatMap]
    refine ⟨(e1, s1), h1, (e2, s2), h2, ?_⟩
    rw [if_neg hg, if_pos hall]
    simp

/-- Helper: the three sample distances, written out with the three
percentages 0, 1/2 and 1 and the flip decision made explicit. -/
theorem distances_explicit (config : ValidationConfig) (p1 p2 : HalfEdge × SurfaceGeometry) :
    distances config p1 p2 = ([0, 1/2, 1] : List ℚ).map fun p =>
      sq_distance_to (sample p1.1 p1.2 p)
        (sample p2.1 p2.2
          (if config.identical_max_distance ^ 2 <
              sq_distance_to (sample p1.1 p1.2 0) (sample p2.1 p2.2 0)
            then 1 - p else p)) := by
  rw [distances]
  have hr : List.range 3 = [0, 1, 2] := rfl
  rw [hr]
  simp only [List.map_cons, List.map_nil, decide_eq_true_eq]
  norm_num

/-- Helper: the any-test of the identical branch, as an existential over
the three sample percentages. -/
theorem any_distances_iff (config : ValidationConfig) (p1 p2 : HalfEdge × SurfaceGeometry) :
    ((distances config p1 p2).any
        fun d => decide (config.identical_max_distance ^ 2 < d)) = true ↔
      ∃ p ∈ ([0, 1/2, 1] : List ℚ), config.identical_max_distance ^ 2 <
        sq_distance_to (sample p1.1 p1.2 p)
          (sample p2.1 p2.2
            (if config.identical_max_distance ^ 2 <
                sq_distance_to (sample p1.1 p1.2 0) (sample p2.1 p2.2 0)
              then 1 - p else p)) := by
  rw [distances_explicit]
  simp [List.any_map, List.any_eq_true, decide_eq_true_eq, Function.comp]

/-- Helper: the all-test of the distinct branch, as a universal over the
three sample percentages. -/
theorem all_distances_iff (config : ValidationConfig) (p1 p2 : HalfEdge × SurfaceGeometry) :
    ((distances config p1 p2).all
        fun d => decide (d < config.distinct_min_distance ^ 2)) = true ↔
      ∀ p ∈ ([0, 1/2, 1] : List ℚ),
        sq_distance_to (sample p1.1 p1.2 p)
          (sample p2.1 p2.2
            (if config.identical_max_distance ^ 2 <
                sq_distance_to (sample p1.1 p1.2 0) (sample p2.1 p2.2 0)
              then 1 - p else p)) < config.distinct_min_distance ^ 2 := by
  rw [distances_explicit]
  simp [List.all_map, List.all_eq_true, decide_eq_true_eq, Function.comp]

/-- Claim C1: the edge-coincidence validation considers every pair of the
shell's half-edges with three samples at 0, 50 and 100 percent of the
boundary interval; for edges sharing a global edge the second edge is
sampled in flipped direction when the start samples are farther apart than
identical_max_distance, and an identicalEdgesNotCoincident error is
reported exactly when one of the three sample distances still exceeds
identical_max_distance; for edges with distinct global edges, a
coincidentEdgesNotIdentical error is reported exactly when all three sample
distances are below distinct_min_distance; and a half-edge paired with
itself is trivially consistent. Distance/threshold comparisons are carried
as squared values, faithful for the nonnegative thresholds assumed here. -/
theorem claim_C1 (shell : Shell) (config : ValidationConfig)
    (_hmax : 0 ≤ config.identical_max_distance)
    (_hmin : 0 ≤ config.distinct_min_distance) :
    (∀ e1 s1 e2 s2, ShellValidationError.identicalEdgesNotCoincident e1 s1 e2 s2 ∈
        validate_edges_coincident shell config ↔
      ((e1, s1) ∈ edges_and_surfaces shell ∧ (e2, s2) ∈ edges_and_surfaces shell ∧
        e1.global_form = e2.global_form ∧
        ∃ p ∈ ([0, 1/2, 1] : List ℚ), config.identical_max_distance ^ 2 <
          sq_distance_to (sample e1 s1 p)
            (sample e2 s2
              (if config.identical_max_distance ^ 2 <
                  sq_distance_to (sample e1 s1 0) (sample e2 s2 0)
                then 1 - p else p)))) ∧
    (∀ e1 e2, ShellValidationError.coincidentEdgesNotIdentical e1 e2 ∈
        validate_edges_coincident shell config ↔
      ∃ s1 s2, (e1, s1) ∈ edges_and_surfaces shell ∧ (e2, s2) ∈ edges_and_surfaces shell ∧
        e1.global_form ≠ e2.global_form ∧
        ∀ p ∈ ([0, 1/2, 1] : List ℚ),
          sq_distance_to (sample e1 s1 p)
            (sample e2 s2
              (if config.identical_max_distance ^ 2 <
                  sq_distance_to (sample e1 s1 0) (sample e2 s2 0)
                then 1 - p else p)) < config.distinct_min_distance ^ 2) ∧
    (∀ e s, (e, s) ∈ edges_and_surfaces shell →
      ShellValidationError.identicalEdgesNotCoincident e s e s ∉
        validate_edges_coincident shell config) := by
  refine ⟨fun e1 s1 e2 s2 => ?_, fun e1 e2 => ?_, fun e s _hes habs => ?_⟩
  · rw [mem_validate_identical_iff, any_distances_iff]
  · rw [mem_validate_coincident_iff]
    simp only [all_distances_iff]
  · obtain ⟨-, -, -, hany⟩ := (mem_validate_identical_iff shell config e s e s).mp habs
    rw [any_distances_iff] at hany
    obtain ⟨p, _hp, hlt⟩ := hany
    rw [if_neg (by
        rw [sq_distance_self]
        exact not_lt.mpr (sq_nonneg _)), sq_distance_self] at hlt
    exact absurd hlt (not_lt.mpr (sq_nonneg _))

/-- Witness for claim C1: the characterization instantiated at the
two-edge shell with the concrete nonnegative tolerances. -/
theorem claim_C1_witness :
    (0 : ℚ) ≤ cfg0.identical_max_distance ∧ (0 : ℚ) ≤ cfg0.distinct_min_distance ∧
    (∀ e s, (e, s) ∈ edges_and_surfaces shell10 →
      ShellValidationError.identicalEdgesNotCoincident e s e s ∉
        validate_edges_coincident shell10 cfg0) :=
  ⟨by norm_num [cfg0], by norm_num [cfg0],
    (claim_C1 shell10 cfg0 (by norm_num [cfg0]) (by norm_num [cfg0])).2.2⟩

/-- Claim C10: the decision to sample the second half-edge in reversed
direction depends only on whether the start samples are farther apart than
identical_max_distance — the distance routine never consults the global
edges, so the flip also happens for pairs with distinct global edges — and
consequently two geometrically coincident half-edges traversed in opposite
directions with distinct global edges are reported as
coincidentEdgesNotIdentical. -/
theorem claim_C10 :
    (∀ (config : ValidationConfig) (p1 p2 : HalfEdge × SurfaceGeometry),
      config.identical_max_distance ^ 2 <
          sq_distance_to (sample p1.1 p1.2 0) (sample p2.1 p2.2 0) →
      distances config p1 p2 =
        [sq_distance_to (sample p1.1 p1.2 0) (sample p2.1 p2.2 1),
          sq_distance_to (sample p1.1 p1.2 (1/2)) (sample p2.1 p2.2 (1/2)),
          sq_distance_to (sample p1.1 p1.2 1) (sample p2.1 p2.2 0)]) ∧
    e10a.global_form ≠ e10b.global_form ∧
    ShellValidationError.coincidentEdgesNotIdentical e10a e10b ∈
      validate_edges_coincident shell10 cfg0 := by
  refine ⟨fun config p1 p2 hflip => ?_, by decide, ?_⟩
  · rw [distances_explicit]
    simp only [List.map_cons, List.map_nil, if_pos hflip]
    norm_num
  · have hlist : validate_edges_coincident shell10 cfg0 =
        [.coincidentEdgesNotIdentical e10a e10b, .coincidentEdgesNotIdentical e10b e10a] := by
      simp [validate_edges_coincident, edges_and_surfaces, shell10, surf10, e10a, e10b,
        Face.all_cycles, distances, sample, sq_distance_to,
        SurfaceGeometry.point_from_surface_coords, GlobalPath.point_from_path_coords,
        Curve.point_from_path_coords, plane_from_points, cfg0, List.range_succ]
      norm_num
    rw [hlist]
    simp

/-- Witness for claim C10: the flip rule instantiated on the two concrete
coincident, oppositely traversed half-edges. -/
theorem claim_C10_witness :
    cfg0.identical_max_distance ^ 2 <
      sq_distance_to (sample e10a surf10 0) (sample e10b surf10 0) ∧
    distances cfg0 (e10a, surf10) (e10b, surf10) =
      [sq_distance_to (sample e10a surf10 0) (sample e10b surf10 1),
        sq_distance_to (sample e10a surf10 (1/2)) (sample e10b surf10 (1/2)),
        sq_distance_to (sample e10a surf10 1) (sample e10b surf10 0)] := by
  have hyp : cfg0.identical_max_distance ^ 2 <
      sq_distance_to (sample e10a surf10 0) (sample e10b surf10 0) := by
    norm_num [cfg0, sample, sq_distance_to, surf10, plane_from_points, e10a, e10b,
      SurfaceGeometry.point_from_surface_coords, GlobalPath.point_from_path_coords,
      Curve.point_from_path_coords]
  exact ⟨hyp, claim_C10.1 cfg0 (e10a, surf10) (e10b, surf10) hyp⟩

end Fj
